import Mathlib

/-!
# serialdaemon.c : the bridge loop, the aux control channel and the argument check

A shallow embedding of `src/serialdaemon.c`.  Bytes are natural numbers, the C `int`
variables are integers, the transfer buffer `char c[BUFFER_SIZE]` is a map from cell
index to byte together with a record of the stores that fell outside the array, and
everything the operating system decides (which descriptors are ready, what each `read`
and `write` returns) is an explicit input of the step functions.
-/

namespace SerialDaemon

/-! ## The transfer buffer -/

/-- Size of the transfer buffer, `#define BUFFER_SIZE 1024`. -/
def BUFFER_SIZE : Nat := 1024

/-- The array `char c[BUFFER_SIZE]` of `main`.  `cell i` is `c[i]` for `i < BUFFER_SIZE`.
A store `c[i] = v` with `i` outside `0 .. BUFFER_SIZE-1` is undefined behaviour in C:
it does not touch any of the array cells, and the model records its index in `overrun`
(most recent first) instead of guessing which neighbouring object it hits. -/
structure Buffer where
  cell : Nat → Nat
  overrun : List Int

/-- The store `c[i] = v`. -/
def Buffer.store (c : Buffer) (i : Int) (v : Nat) : Buffer :=
  if 0 ≤ i ∧ i < (BUFFER_SIZE : Int) then
    { c with cell := fun j => if j = i.toNat then v else c.cell j }
  else
    { c with overrun := i :: c.overrun }

/-- The bytes `c[0] .. c[n-1]`, which is what `write(fd, c, n)` and
`printDebugString(c, n)` are handed. -/
def Buffer.firstBytes (c : Buffer) (n : Int) : List Nat :=
  (List.range n.toNat).map c.cell

/-- Effect of a successful `read(fd, c, BUFFER_SIZE)` that delivered `chunk`:
the chunk lands in `c[0 ..]`, the cells behind it keep their old contents. -/
def Buffer.fill (c : Buffer) (chunk : List Nat) : Buffer :=
  { c with cell := fun i => chunk.getD i (c.cell i) }

/-! ## Constants of the system headers -/

/-- Speed constants of `<termios.h>` as defined by Linux (`asm-generic/termbits.h`),
the platform on which all eight rates of `parseBaudRates` are compiled in. -/
def B9600 : Int := 13

/-- Linux value `0000016`. -/
def B19200 : Int := 14

/-- Linux value `0000017`. -/
def B38400 : Int := 15

/-- Linux value `0010001`. -/
def B57600 : Int := 4097

/-- Linux value `0010002`. -/
def B115200 : Int := 4098

/-- Linux value `0010003`. -/
def B230400 : Int := 4099

/-- Linux value `0010004`. -/
def B460800 : Int := 4100

/-- Linux value `0010005`. -/
def B500000 : Int := 4101

/-- Linux value of the `errno` code `EWOULDBLOCK` (same as `EAGAIN`). -/
def EWOULDBLOCK : Int := 11

/-! ## Standard output -/

/-- One constructor per `printf` of the program (the debug dump of
`printDebugString` carries the bytes it prints). -/
inductive Msg where
  | unknownBaud
  | badTermios
  | debugChanged (speed : Int)
  | unknownArgument (arg : String)
  | usage
  | debugModeOn
  | malformedAux
  | debugAuxBaud
  | unknownAux
  | debugStripped
  | debugSerialOut (bytes : List Nat)
  | debugWrote (result y : Int)
  | debugSerialIn (bytes : List Nat)
  | droppingBytes
  | debugRead (result csize : Int)
  | restarting
  | debugNewData
  | debugNewAux
  | nonblockFailed
  deriving DecidableEq, Repr

/-! ## atoi and parseBaudRates -/

/-- Whether a byte is white space for `isspace` in the C locale. -/
def isspace (b : Nat) : Bool := b == 32 || (9 ≤ b && b ≤ 13)

/-- Whether a byte is a decimal digit. -/
def isdigit (b : Nat) : Bool := 48 ≤ b && b ≤ 57

/-- Value of the longest run of decimal digits at the head of `s`, continuing `acc`. -/
def digitsValue : List Nat → Nat → Nat
  | [], acc => acc
  | b :: bs, acc => if isdigit b then digitsValue bs (acc * 10 + (b - 48)) else acc

/-- Saturation of `strtol` to the range of a 64-bit `long`. -/
def clampLong (v : Int) : Int :=
  if v < -(2 ^ 63) then -(2 ^ 63) else if 2 ^ 63 - 1 < v then 2 ^ 63 - 1 else v

/-- Conversion of a `long` to a 32-bit `int` (two's complement truncation). -/
def toInt32 (v : Int) : Int := (v + 2 ^ 31) % 2 ^ 32 - 2 ^ 31

/-- The libc function `atoi` on the bytes of a C string (without its terminator):
skip white space, take an optional sign, read decimal digits.  Values outside `int`
are undefined in C; they are given the glibc LP64 result (`(int) strtol(s, NULL, 10)`). -/
def atoi (s : List Nat) : Int :=
  match s.dropWhile isspace with
  | 45 :: r => toInt32 (clampLong (-(digitsValue r 0 : Int)))
  | 43 :: r => toInt32 (clampLong (digitsValue r 0 : Int))
  | r => toInt32 (clampLong (digitsValue r 0 : Int))

/-- Translation of `parseBaudRates`: the speed constant for the decimal rate, or `0`
together with the error line when the rate is not in the table. -/
def parseBaudRates (baudChars : List Nat) : Int × List Msg :=
  let tmp := atoi baudChars
  if tmp = 500000 then (B500000, [])
  else if tmp = 460800 then (B460800, [])
  else if tmp = 230400 then (B230400, [])
  else if tmp = 115200 then (B115200, [])
  else if tmp = 57600 then (B57600, [])
  else if tmp = 38400 then (B38400, [])
  else if tmp = 19200 then (B19200, [])
  else if tmp = 9600 then (B9600, [])
  else (0, [Msg.unknownBaud])

/-! ## The serial line -/

/-- The part of `struct termios` the program changes after start-up: the two speeds
(`cfsetispeed`, `cfsetospeed`; `cfgetispeed` reads `ispeed`). -/
structure Termios where
  ispeed : Int
  ospeed : Int
  deriving DecidableEq, Repr

/-- What the bridge keeps from the command line: the switches `STRIP`, `INDEBUG`,
`OUTDEBUG`, `NONBLOCK`, and whether an aux listening socket exists
(`auxfd_pre != NOTHING`). -/
structure Config where
  STRIP : Bool
  INDEBUG : Bool
  OUTDEBUG : Bool
  NONBLOCK : Bool
  AUX : Bool
  deriving DecidableEq, Repr

/-- The variables of `main` that live across iterations of the bridge loop, the state
of the descriptors, and what has been emitted so far.
`y` is the index shared by both forwarding branches; `blockerror` is set once and
never cleared; `line` is the setting of the serial device; `sockOpen` tells whether
the accepted data connection `sockfd` is open, `serialOpen` the same for `serialfd`;
`toSerial` and `toSock` list the byte strings handed to `write(serialfd, ..)` and
`write(sockfd, ..)`, oldest first; `out` is standard output, oldest first. -/
structure Daemon where
  c : Buffer
  y : Int
  blockerror : Int
  line : Termios
  sockOpen : Bool
  serialOpen : Bool
  toSerial : List (List Nat)
  toSock : List (List Nat)
  out : List Msg

/-- Translation of `auxShiftBaud(cmd)`: the rate is parsed and both speeds of the serial
line are set to the result without looking at it; `confirmOk` is whether the final
`tcgetattr` returned `0`. -/
def auxShiftBaud (cfg : Config) (confirmOk : Bool) (cmd : List Nat) (s : Daemon) : Daemon :=
  let r := parseBaudRates cmd
  let newBaud := r.1
  let s1 := { s with out := s.out ++ r.2 }
  let newtio : Termios := { s1.line with ispeed := newBaud }
  let newtio : Termios := { newtio with ospeed := newBaud }
  let s2 := { s1 with line := newtio }
  if !confirmOk then { s2 with out := s2.out ++ [Msg.badTermios] }
  else if cfg.OUTDEBUG then { s2 with out := s2.out ++ [Msg.debugChanged s2.line.ispeed] }
  else s2

/-! ## The data-socket branch of the bridge loop -/

/-- The loop `for(x = 0, y = 0; x < csize; x++, y++)` of the data-socket branch, entered
at index `x` with `n = csize - x` iterations left.  A line feed takes `y` back by one
before the loop increment, every other byte is copied from `c[x]` to `c[y]`. -/
def sockStripLoop (cfg : Config) : Nat → Nat → Daemon → Daemon
  | 0, _, s => s
  | n + 1, x, s =>
    let s1 :=
      if s.c.cell x = 10 then
        let s0 := { s with y := s.y - 1 }
        if cfg.OUTDEBUG then { s0 with out := s0.out ++ [Msg.debugStripped] } else s0
      else { s with c := s.c.store s.y (s.c.cell x) }
    sockStripLoop cfg n (x + 1) { s1 with y := s1.y + 1 }

/-- Result of `read(fd, c, BUFFER_SIZE)`: some bytes, end of file (`0`) or an
error (`-1`). -/
inductive ReadResult where
  | data (bytes : List Nat)
  | eof
  | err
  deriving DecidableEq, Repr

/-- The value `read` returns, stored in `csize`. -/
def ReadResult.csize : ReadResult → Int
  | .data bytes => bytes.length
  | .eof => 0
  | .err => -1

/-- The buffer after the `read`. -/
def ReadResult.into (r : ReadResult) (c : Buffer) : Buffer :=
  match r with
  | .data bytes => c.fill bytes
  | .eof => c
  | .err => c

/-- Outcome of servicing one descriptor, or of one whole iteration of the bridge loop:
the loop goes on, or `break` was executed. -/
inductive Step where
  | next (s : Daemon)
  | ended (s : Daemon)

/-- The state carried by a step. -/
def Step.state : Step → Daemon
  | .next s => s
  | .ended s => s

/-- Whether the step executed `break`. -/
def Step.isEnded : Step → Bool
  | .next _ => false
  | .ended _ => true

/-- Body of `if (FD_ISSET(sockfd,&rset))`: `rd` is what `read(sockfd, ..)` delivers and
`wr` what `write(serialfd, c, y)` returns. -/
def sockBranch (cfg : Config) (rd : ReadResult) (wr : Int) (s : Daemon) : Step :=
  let csize := rd.csize
  let s : Daemon := { s with c := rd.into s.c }
  if 1 ≤ csize then
    let s : Daemon := { s with y := csize }
    let s : Daemon := if cfg.STRIP then sockStripLoop cfg csize.toNat 0 { s with y := 0 } else s
    let s :=
      if cfg.OUTDEBUG then
        let s : Daemon := { s with c := s.c.store s.y 0 }
        { s with out := s.out ++ [Msg.debugSerialOut (s.c.firstBytes s.y)] }
      else s
    let s : Daemon := { s with toSerial := s.toSerial ++ [s.c.firstBytes s.y] }
    let result := wr
    let s : Daemon := if cfg.OUTDEBUG then { s with out := s.out ++ [Msg.debugWrote result s.y] } else s
    .next s
  else .ended s

/-! ## The serial branch of the bridge loop -/

/-- The loop `for(x = 0; x < csize; x++)` of the serial branch, entered at index `x`
with `n = csize - x` iterations left.  A carriage return is overwritten in place, every
other byte is copied from `c[x]` to `c[y]`, where `y` is whatever the data-socket branch
left behind. -/
def serialStripLoop (cfg : Config) : Nat → Nat → Daemon → Daemon
  | 0, _, s => s
  | n + 1, x, s =>
    let s1 :=
      if s.c.cell x = 13 then
        let s0 := { s with c := s.c.store x 10 }
        if cfg.OUTDEBUG then { s0 with out := s0.out ++ [Msg.debugStripped] } else s0
      else { s with c := s.c.store s.y (s.c.cell x) }
    serialStripLoop cfg n (x + 1) s1

/-- Body of `if (FD_ISSET(serialfd,&rset))`: `rd` is what `read(serialfd, ..)` delivers
and `wr` what `write(sockfd, c, csize)` returns. -/
def serialBranch (cfg : Config) (rd : ReadResult) (wr : Int) (s : Daemon) : Step :=
  let csize := rd.csize
  let s : Daemon := { s with c := rd.into s.c }
  if 1 ≤ csize then
    let s : Daemon := if cfg.STRIP then serialStripLoop cfg csize.toNat 0 s else s
    let s :=
      if cfg.INDEBUG then
        let s : Daemon := { s with c := s.c.store csize 0 }
        { s with out := s.out ++ [Msg.debugSerialIn (s.c.firstBytes csize)] }
      else s
    let s : Daemon := { s with toSock := s.toSock ++ [s.c.firstBytes csize] }
    let result := wr
    let s :=
      if result = EWOULDBLOCK then
        if s.blockerror = 0 then
          { s with blockerror := 1, out := s.out ++ [Msg.droppingBytes] }
        else s
      else if cfg.INDEBUG then { s with out := s.out ++ [Msg.debugRead result csize] }
      else s
    .next s
  else .ended s

/-! ## readline and the aux branch -/

/-- Result of one `read(fd, &c, 1)`: a byte, end of file (`0`) or an error. -/
inductive ByteRead where
  | byte (b : Nat)
  | eof
  | err
  deriving DecidableEq, Repr

/-- The loop of `readline`, entered with counter `n`, with `ptr = c + p` and
`fuel = maxlen - n` iterations left; `rd k` is the result of the `k`-th `read` of this
call (counted from `0`).  Returns the value of `readline` and the buffer. -/
def readlineLoop (rd : Nat → ByteRead) : Nat → Nat → Nat → Buffer → Int × Buffer
  | 0, n, p, c => ((n : Int), c.store (p : Int) 0)
  | fuel + 1, n, p, c =>
    match rd (n - 1) with
    | .byte b =>
      if b = 10 then ((n : Int), (c.store (p : Int) b).store ((p + 1 : Nat) : Int) 0)
      else readlineLoop rd fuel (n + 1) (p + 1) (c.store (p : Int) b)
    | .eof => if n = 1 then (0, c) else ((n : Int), c.store (p : Int) 0)
    | .err => (-1, c)

/-- Translation of `readline(fd, ptr, maxlen)` called with `ptr = c`. -/
def readline (rd : Nat → ByteRead) (c : Buffer) (maxlen : Nat) : Int × Buffer :=
  readlineLoop rd (maxlen - 1) 1 0 c

/-- The C string that starts at `&c[i]`: the cells from `i` up to the first zero byte
(looked for inside the array only). -/
def cstringAt (c : Buffer) (i : Nat) : List Nat :=
  ((List.range (BUFFER_SIZE - i)).map (fun j => c.cell (i + j))).takeWhile (fun b => b != 0)

/-- Body of `if (FD_ISSET(auxfd,&rset))`: `rd` feeds `readline(auxfd, c, BUFFER_SIZE)`,
`confirmOk` is the outcome of the last `tcgetattr` of `auxShiftBaud`.  The malformed-line
test only prints; the `switch` on the command letter follows in every case. -/
def auxBranch (cfg : Config) (rd : Nat → ByteRead) (confirmOk : Bool) (s : Daemon) : Step :=
  let r := readline rd s.c BUFFER_SIZE
  let csize := r.1
  let s : Daemon := { s with c := r.2 }
  if 1 ≤ csize then
    let s : Daemon := { s with c := s.c.store csize 0 }
    let cmd := s.c.cell 0
    let s : Daemon :=
      if s.c.cell 1 ≠ 32 then { s with out := s.out ++ [Msg.malformedAux] } else s
    let data := cstringAt s.c 2
    if cmd = 66 then
      let s : Daemon :=
        if cfg.INDEBUG then { s with out := s.out ++ [Msg.debugAuxBaud] } else s
      .next (auxShiftBaud cfg confirmOk data s)
    else .next { s with out := s.out ++ [Msg.unknownAux] }
  else .ended s

/-! ## One iteration of the bridge loop, sessions -/

/-- What `select` and the following system calls deliver in one iteration of the bridge
loop: for each descriptor whether it is in the ready set (`none`: not ready) and, if so,
what its read returns; and the results of the calls made while servicing it. -/
structure Wake where
  aux : Option (Nat → ByteRead)
  confirmOk : Bool
  sock : Option ReadResult
  serialWrite : Int
  serial : Option ReadResult
  sockWrite : Int

/-- One iteration of the loop `while(1)` labelled "Main Loop": aux, then data socket, then
serial line; a `break` in one branch skips the branches after it. -/
def iteration (cfg : Config) (w : Wake) (s : Daemon) : Step :=
  let afterAux : Step :=
    match w.aux with
    | none => .next s
    | some rd => auxBranch cfg rd w.confirmOk s
  match afterAux with
  | .ended s => .ended s
  | .next s =>
    let afterSock : Step :=
      match w.sock with
      | none => .next s
      | some rd => sockBranch cfg rd w.serialWrite s
    match afterSock with
    | .ended s => .ended s
    | .next s =>
      match w.serial with
      | none => .next s
      | some rd => serialBranch cfg rd w.sockWrite s

/-- The statements behind the bridge loop: `printf("Restarting\n"); close(sockfd);`,
after which control is back at the top of the connection-wait loop. -/
def restart (s : Daemon) : Daemon :=
  { s with out := s.out ++ [Msg.restarting], sockOpen := false }

/-- Translation of `closeAll` for the two descriptors the model tracks. -/
def closeAll (s : Daemon) : Daemon :=
  { s with sockOpen := false, serialOpen := false }

/-- Where `main` stands between two events: blocked in `waitOnSocket(sockfd_pre)` at the
top of the connection-wait loop, blocked in `select` at the top of the bridge loop, or
returned. -/
inductive Process where
  | waiting (s : Daemon)
  | bridging (s : Daemon)
  | exited (s : Daemon)

/-- Outcome of the accept phase: whether `accept` on the data port succeeded, whether
`fcntl` returned `0`, whether `accept` on the aux port succeeded. -/
structure Accept where
  dataOk : Bool
  nonblockOk : Bool
  auxOk : Bool

/-- The connection-wait loop from its top to `FD_ZERO(&rset)`. -/
def acceptPhase (cfg : Config) (a : Accept) (s : Daemon) : Process :=
  let s : Daemon := { s with sockOpen := a.dataOk }
  let s : Daemon :=
    if cfg.INDEBUG || cfg.OUTDEBUG then { s with out := s.out ++ [Msg.debugNewData] } else s
  if !a.dataOk then .exited (closeAll s)
  else if cfg.NONBLOCK && !a.nonblockOk then
    .exited (closeAll { s with out := s.out ++ [Msg.nonblockFailed] })
  else if cfg.AUX then
    let s : Daemon :=
      if cfg.INDEBUG || cfg.OUTDEBUG then { s with out := s.out ++ [Msg.debugNewAux] } else s
    if !a.auxOk then .exited (closeAll s) else .bridging s
  else .bridging s

/-- An event the process reacts to. -/
inductive Event where
  | accept (a : Accept)
  | wake (w : Wake)

/-- The reaction of `main` to one event.  An event that does not fit the place where
`main` is blocked leaves the process as it is. -/
def Process.step (cfg : Config) : Process → Event → Process
  | .waiting s, .accept a => acceptPhase cfg a s
  | .bridging s, .wake w =>
    match iteration cfg w s with
    | .next s1 => .bridging s1
    | .ended s1 => .waiting (restart s1)
  | p, _ => p

/-- The process after a sequence of events. -/
def Process.run (cfg : Config) : Process → List Event → Process
  | p, [] => p
  | p, e :: es => Process.run cfg (Process.step cfg p e) es

/-! ## Command line -/

/-- The variables the argument loop of `main` fills in.  `SERIAL` is an uninitialised
array until `-serial` is seen (`none`); `args` counts the occurrences of `-serial`,
`-port` and `-baud`. -/
structure Opts where
  SERIAL : Option String
  SOCKET_PORT : Int
  BAUD : Int
  AUX_PORT : Int
  STRIP : Bool
  INDEBUG : Bool
  OUTDEBUG : Bool
  NONBLOCK : Bool
  args : Int
  deriving DecidableEq, Repr

/-- The initial values of these variables. -/
def Opts.initial : Opts :=
  { SERIAL := none, SOCKET_PORT := 0, BAUD := 0, AUX_PORT := 0, STRIP := false,
    INDEBUG := false, OUTDEBUG := false, NONBLOCK := false, args := 0 }

/-- The bytes of a command-line word, as `atoi` sees them. -/
def cbytes (w : String) : List Nat := w.toList.map Char.toNat

/-- How the argument loop ends: it ran through all words, it executed `return`, or it
touched memory it must not (`argv[argc]`, which is `NULL`, used as a string; a device
path of 100 bytes or more copied into `char SERIAL[100]`). -/
inductive ArgScan where
  | done (o : Opts) (out : List Msg)
  | exit (code : Int) (out : List Msg)
  | fault
  deriving DecidableEq, Repr

/-- The loop `for (x=1; x<argc; x++)` over the words `argv[x] ..`. -/
def scanArgs : List String → Opts → List Msg → ArgScan
  | [], o, out => .done o out
  | a :: rest, o, out =>
    if a = "-serial" then
      match rest with
      | [] => .fault
      | v :: rest2 =>
        if 100 ≤ v.utf8ByteSize then .fault
        else scanArgs rest2 { o with SERIAL := some v, args := o.args + 1 } out
    else if a = "-port" then
      match rest with
      | [] => .fault
      | v :: rest2 =>
        scanArgs rest2 { o with SOCKET_PORT := atoi (cbytes v), args := o.args + 1 } out
    else if a = "-baud" then
      match rest with
      | [] => .fault
      | v :: rest2 =>
        let r := parseBaudRates (cbytes v)
        if r.1 = 0 then .exit 1 (out ++ r.2)
        else scanArgs rest2 { o with BAUD := r.1, args := o.args + 1 } (out ++ r.2)
    else if a = "-aux" then
      match rest with
      | [] => .fault
      | v :: rest2 => scanArgs rest2 { o with AUX_PORT := atoi (cbytes v) } out
    else if a = "-strip" then scanArgs rest { o with STRIP := true } out
    else if a = "-indebug" then scanArgs rest { o with INDEBUG := true } out
    else if a = "-outdebug" then scanArgs rest { o with OUTDEBUG := true } out
    else if a = "-debug" then scanArgs rest { o with INDEBUG := true, OUTDEBUG := true } out
    else if a = "-nonblock" then scanArgs rest { o with NONBLOCK := true } out
    else .exit 1 (out ++ [Msg.unknownArgument a])

/-- How far `main` gets before it touches the network: it returned with an exit status
before the first `makeSocket`, it faulted in the argument loop, or control reached
`sockfd_pre = makeSocket(SOCKET_PORT)`, the first statement that creates a socket (the
serial device is opened after it). -/
inductive Startup where
  | exited (code : Int) (out : List Msg)
  | fault
  | makeSocket (o : Opts) (out : List Msg)
  deriving DecidableEq, Repr

/-- Translation of `main` from its first statement to the first `makeSocket`. -/
def startup (argv : List String) : Startup :=
  match scanArgs (argv.drop 1) Opts.initial [] with
  | .fault => .fault
  | .exit code out => .exited code out
  | .done o out =>
    if o.args < 3 then .exited 1 (out ++ [Msg.usage])
    else if o.INDEBUG || o.OUTDEBUG then .makeSocket o (out ++ [Msg.debugModeOn])
    else .makeSocket o out

/-! ## Concrete inputs and tables used in the statements -/

/-- The stores `*ptr++ = c` of `readline` for the bytes of `l`, the first one at `c[p]`. -/
def Buffer.storeBytes : Buffer → Int → List Nat → Buffer
  | c, _, [] => c
  | c, p, b :: bs => Buffer.storeBytes (c.store p b) (p + 1) bs

/-- A descriptor on which `read(fd, &c, 1)` delivers the bytes of `l` one by one and
then reports end of file. -/
def streamOf (l : List Nat) : Nat → ByteRead :=
  fun k => match l.get? k with
    | some b => .byte b
    | none => .eof

/-- The `case` labels of `parseBaudRates` with the constant each one assigns. -/
def supportedRates : List (Nat × Int) :=
  [(9600, B9600), (19200, B19200), (38400, B38400), (57600, B57600), (115200, B115200),
   (230400, B230400), (460800, B460800), (500000, B500000)]

/-- The decimal digits of a number, as bytes. -/
def decimal (r : Nat) : List Nat := cbytes (toString r)

/-- The aux line `B <digits of r>\n`. -/
def baudLine (r : Nat) : List Nat := 66 :: 32 :: (decimal r ++ [10])

/-- A state at the top of the bridge loop: serial line at 9600 baud, both descriptors
open, nothing written yet; the buffer and `y`, which the program does not initialise,
hold zeros. -/
def Daemon.sample : Daemon :=
  { c := { cell := fun _ => 0, overrun := [] }, y := 0, blockerror := 0,
    line := { ispeed := B9600, ospeed := B9600 }, sockOpen := true, serialOpen := true,
    toSerial := [], toSock := [], out := [] }

/-- Switches of a run with `-strip` and an aux port, no tracing. -/
def Config.strip : Config :=
  { STRIP := true, INDEBUG := false, OUTDEBUG := false, NONBLOCK := false, AUX := true }

/-- Switches of a run with `-nonblock` and nothing else. -/
def Config.plain : Config :=
  { STRIP := false, INDEBUG := false, OUTDEBUG := false, NONBLOCK := true, AUX := false }

/-- Switches of a run with `-debug` and an aux port, no stripping. -/
def Config.debug : Config :=
  { STRIP := false, INDEBUG := true, OUTDEBUG := true, NONBLOCK := false, AUX := true }

/-- A wake-up in which no descriptor is ready. -/
def Wake.idle : Wake :=
  { aux := none, confirmOk := true, sock := none, serialWrite := 0, serial := none,
    sockWrite := 0 }

/-- Whether the words after `argv[0]` are built from the flags the argument loop knows,
every value-taking flag is followed by a value, and every device path fits
`char SERIAL[100]`. -/
def wellFormedArgs : List String → Bool
  | [] => true
  | a :: rest =>
    if a = "-serial" then
      match rest with
      | [] => false
      | v :: rest2 => decide (v.utf8ByteSize < 100) && wellFormedArgs rest2
    else if a = "-port" ∨ a = "-baud" ∨ a = "-aux" then
      match rest with
      | [] => false
      | _ :: rest2 => wellFormedArgs rest2
    else if a = "-strip" ∨ a = "-indebug" ∨ a = "-outdebug" ∨ a = "-debug" ∨ a = "-nonblock"
    then wellFormedArgs rest
    else false

/-- The flags of an argument list, that is the words that do not stand as the value of
a value-taking flag. -/
def flagWords : List String → List String
  | [] => []
  | a :: rest =>
    if a = "-serial" ∨ a = "-port" ∨ a = "-baud" ∨ a = "-aux" then
      match rest with
      | [] => [a]
      | _ :: rest2 => a :: flagWords rest2
    else a :: flagWords rest

/-- Number of occurrences of the flags `-serial`, `-port` and `-baud` (words that stand
as the value of a flag are not counted). -/
def requiredCount : List String → Nat
  | [] => 0
  | a :: rest =>
    if a = "-serial" ∨ a = "-port" ∨ a = "-baud" then
      match rest with
      | [] => 1
      | _ :: rest2 => requiredCount rest2 + 1
    else if a = "-aux" then
      match rest with
      | [] => 0
      | _ :: rest2 => requiredCount rest2
    else requiredCount rest

/-- Whether every value given to a `-baud` flag is a rate of the table. -/
def baudValuesOk : List String → Bool
  | [] => true
  | a :: rest =>
    if a = "-baud" then
      match rest with
      | [] => true
      | v :: rest2 => decide ((parseBaudRates (cbytes v)).1 ≠ 0) && baudValuesOk rest2
    else if a = "-serial" ∨ a = "-port" ∨ a = "-aux" then
      match rest with
      | [] => true
      | _ :: rest2 => baudValuesOk rest2
    else baudValuesOk rest

/-- The session ends in the iteration that reacts to the wake-up `w`: the process goes
from bridging to waiting for the next data connection (it does not exit), with the data
connection closed and the serial descriptor as it was. -/
def EndsSession (cfg : Config) (s : Daemon) (w : Wake) : Prop :=
  ∃ s1, Process.step cfg (Process.bridging s) (Event.wake w) = Process.waiting s1 ∧
    s1.sockOpen = false ∧ s1.serialOpen = s.serialOpen

/-! ## Lemmas on the buffer -/

theorem range_succ_map_shift (f : Nat → Nat) (x n : Nat) :
    (List.range (n + 1)).map (fun j => f (x + j))
      = f x :: (List.range n).map (fun j => f (x + 1 + j)) := by
  rw [List.range_succ_eq_map, List.map_cons, List.map_map]
  simp only [Nat.add_zero, List.cons.injEq, true_and]
  apply List.map_congr_left
  intro j _
  simp only [Function.comp_apply]
  congr 1
  omega

theorem store_inside (c : Buffer) (k v : Nat) (h : k < BUFFER_SIZE) :
    c.store (k : Int) v = { c with cell := fun j => if j = k then v else c.cell j } := by
  unfold Buffer.store
  have h1 : (0 : Int) ≤ (k : Int) ∧ (k : Int) < (BUFFER_SIZE : Int) := by
    constructor
    · omega
    · exact_mod_cast h
  rw [if_pos h1]
  simp

theorem fill_firstBytes (c : Buffer) (chunk : List Nat) :
    (c.fill chunk).firstBytes (chunk.length : Int) = chunk := by
  unfold Buffer.firstBytes Buffer.fill
  apply List.ext_getElem
  · simp
  · intro i h1 h2
    simp at h1
    simp [List.getD_eq_getElem?_getD, h1]

/-! ## The data-socket strip loop computes the filter -/

theorem sockStripLoop_spec (cfg : Config) (n : Nat) : ∀ (x k : Nat) (s : Daemon),
    s.y = (k : Int) → k ≤ x → x + n ≤ BUFFER_SIZE →
    (sockStripLoop cfg n x s).y
        = ((k + (((List.range n).map (fun j => s.c.cell (x + j))).filter
            (fun b => b ≠ 10)).length : Nat) : Int) ∧
      (List.range (k + (((List.range n).map (fun j => s.c.cell (x + j))).filter
            (fun b => b ≠ 10)).length)).map (sockStripLoop cfg n x s).c.cell
        = (List.range k).map s.c.cell
            ++ ((List.range n).map (fun j => s.c.cell (x + j))).filter (fun b => b ≠ 10) ∧
      (sockStripLoop cfg n x s).c.overrun = s.c.overrun ∧
      (sockStripLoop cfg n x s).toSerial = s.toSerial ∧
      (sockStripLoop cfg n x s).toSock = s.toSock ∧
      (sockStripLoop cfg n x s).line = s.line ∧
      (sockStripLoop cfg n x s).blockerror = s.blockerror ∧
      (sockStripLoop cfg n x s).sockOpen = s.sockOpen ∧
      (sockStripLoop cfg n x s).serialOpen = s.serialOpen := by
  induction n with
  | zero =>
    intro x k s hy _ _
    simp [sockStripLoop, hy]
  | succ n ih =>
    intro x k s hy hk hx
    rw [range_succ_map_shift]
    by_cases hv : s.c.cell x = 10
    · have hstep : sockStripLoop cfg (n + 1) x s
          = sockStripLoop cfg n (x + 1)
              { (if cfg.OUTDEBUG then
                  { ({ s with y := s.y - 1 } : Daemon) with
                      out := s.out ++ [Msg.debugStripped] }
                 else ({ s with y := s.y - 1 } : Daemon)) with y := (k : Int) } := by
        simp only [sockStripLoop, hv, if_true]
        cases cfg.OUTDEBUG <;> simp [hy]
      rw [hstep]
      have h := ih (x + 1) k
        { (if cfg.OUTDEBUG then
            { ({ s with y := s.y - 1 } : Daemon) with out := s.out ++ [Msg.debugStripped] }
           else ({ s with y := s.y - 1 } : Daemon)) with y := (k : Int) }
        rfl (by omega) (by omega)
      cases hd : cfg.OUTDEBUG <;> simp only [hd] at h ⊢ <;> simpa [hv] using h
    · have hkb : k < BUFFER_SIZE := by omega
      have hstep : sockStripLoop cfg (n + 1) x s
          = sockStripLoop cfg n (x + 1)
              { s with c := { s.c with cell := fun j => if j = k then s.c.cell x else s.c.cell j },
                       y := ((k + 1 : Nat) : Int) } := by
        simp only [sockStripLoop, hv, if_false, hy, store_inside _ _ _ hkb]
        simp
      rw [hstep]
      have h := ih (x + 1) (k + 1)
        { s with c := { s.c with cell := fun j => if j = k then s.c.cell x else s.c.cell j },
                 y := ((k + 1 : Nat) : Int) }
        rfl (by omega) (by omega)
      simp only at h
      have hsrc : (List.range n).map
            (fun j => if x + 1 + j = k then s.c.cell x else s.c.cell (x + 1 + j))
          = (List.range n).map (fun j => s.c.cell (x + 1 + j)) := by
        apply List.map_congr_left
        intro j _
        have : x + 1 + j ≠ k := by omega
        simp [this]
      have hpre : (List.range (k + 1)).map
            (fun j => if j = k then s.c.cell x else s.c.cell j)
          = (List.range k).map s.c.cell ++ [s.c.cell x] := by
        rw [List.range_succ, List.map_append]
        congr 1
        · apply List.map_congr_left
          intro j hj
          have : j ≠ k := by
            have := List.mem_range.mp hj
            omega
          simp [this]
        · simp
      rw [hsrc, hpre] at h
      have hf : List.filter (fun b => decide (b ≠ 10))
            (s.c.cell x :: (List.range n).map (fun j => s.c.cell (x + 1 + j)))
          = s.c.cell x :: List.filter (fun b => decide (b ≠ 10))
              ((List.range n).map (fun j => s.c.cell (x + 1 + j))) := by
        rw [List.filter_cons_of_pos]
        simpa using hv
      rw [hf]
      obtain ⟨h1, h2, h3⟩ := h
      refine ⟨?_, ?_, h3⟩
      · rw [h1]
        simp only [List.length_cons]
        congr 1
        omega
      · have e : k + (List.filter (fun b => decide (b ≠ 10))
              ((List.range n).map (fun j => s.c.cell (x + 1 + j)))).length + 1
            = k + 1 + (List.filter (fun b => decide (b ≠ 10))
              ((List.range n).map (fun j => s.c.cell (x + 1 + j)))).length := by omega
        simp only [List.length_cons]
        rw [← Nat.add_assoc, e, h2]
        simp

theorem store_firstBytes (c : Buffer) (m : Nat) (v : Nat) :
    (c.store (m : Int) v).firstBytes (m : Int) = c.firstBytes (m : Int) := by
  unfold Buffer.store Buffer.firstBytes
  split
  · apply List.map_congr_left
    intro j hj
    have hj2 : j < m := by simpa using hj
    have : j ≠ m := by omega
    simp [this]
  · rfl

theorem filter_ne_length (chunk : List Nat) (b : Nat) :
    (chunk.filter (fun a => a ≠ b)).length = chunk.length - chunk.count b := by
  have key : (chunk.filter (fun a => a ≠ b)).length + chunk.count b = chunk.length := by
    induction chunk with
    | nil => rfl
    | cons a l ih =>
      rw [List.filter_cons, List.count_cons]
      by_cases h : a = b
      · simp [h] at ih ⊢
        omega
      · simp [h] at ih ⊢
        omega
  omega

theorem fill_range_cells (c : Buffer) (chunk : List Nat) :
    (List.range chunk.length).map (fun j => (c.fill chunk).cell j) = chunk := by
  have h := fill_firstBytes c chunk
  unfold Buffer.firstBytes at h
  simpa using h

/-- What the data-socket branch hands to `write(serialfd, ..)` for a chunk, with
stripping on. -/
theorem sockBranch_strip (cfg : Config) (s : Daemon) (chunk : List Nat) (wr : Int)
    (hstrip : cfg.STRIP = true) (hne : chunk ≠ []) (hlen : chunk.length ≤ BUFFER_SIZE) :
    (sockBranch cfg (ReadResult.data chunk) wr s).isEnded = false ∧
    (sockBranch cfg (ReadResult.data chunk) wr s).state.toSerial
      = s.toSerial ++ [chunk.filter (fun b => b ≠ 10)] := by
  have hpos : (1 : Int) ≤ (chunk.length : Int) := by
    have : 0 < chunk.length := List.length_pos.mpr hne
    omega
  have hloop := sockStripLoop_spec cfg chunk.length 0 0
    { s with c := s.c.fill chunk, y := 0 } rfl (le_refl 0) (by omega)
  simp only [Nat.zero_add, List.range_zero, List.map_nil, List.nil_append] at hloop
  rw [fill_range_cells] at hloop
  obtain ⟨hy, hcells, -, hser, -⟩ := hloop
  have hfb : (sockStripLoop cfg chunk.length 0
        { s with c := s.c.fill chunk, y := 0 }).c.firstBytes
          (sockStripLoop cfg chunk.length 0 { s with c := s.c.fill chunk, y := 0 }).y
      = chunk.filter (fun b => b ≠ 10) := by
    rw [hy]
    unfold Buffer.firstBytes
    simpa using hcells
  unfold sockBranch
  simp only [ReadResult.csize, ReadResult.into, hpos, if_true, hstrip, Int.toNat_ofNat]
  cases hd : cfg.OUTDEBUG
  · simp [Step.isEnded, Step.state, hfb, hser]
  · simp only [if_true, Step.isEnded, Step.state, true_and]
    rw [hy, store_firstBytes, ← hy, hfb, hser]

/-- What the data-socket branch hands to `write(serialfd, ..)` for a chunk, with
stripping off. -/
theorem sockBranch_plain (cfg : Config) (s : Daemon) (chunk : List Nat) (wr : Int)
    (hstrip : cfg.STRIP = false) (hne : chunk ≠ []) :
    (sockBranch cfg (ReadResult.data chunk) wr s).isEnded = false ∧
    (sockBranch cfg (ReadResult.data chunk) wr s).state.toSerial = s.toSerial ++ [chunk] := by
  have hpos : (1 : Int) ≤ (chunk.length : Int) := by
    have : 0 < chunk.length := List.length_pos.mpr hne
    omega
  unfold sockBranch
  simp only [ReadResult.csize, ReadResult.into, hpos, if_true, hstrip, Bool.false_eq_true,
    if_false]
  cases hd : cfg.OUTDEBUG
  · simp [Step.isEnded, Step.state, fill_firstBytes]
  · simp [Step.isEnded, Step.state, store_firstBytes, fill_firstBytes]

set_option maxRecDepth 8000 in
/-- What the serial branch hands to `write(sockfd, ..)` for a chunk, with stripping
off. -/
theorem serialBranch_plain (cfg : Config) (s : Daemon) (chunk : List Nat) (wr : Int)
    (hstrip : cfg.STRIP = false) (hne : chunk ≠ []) :
    (serialBranch cfg (ReadResult.data chunk) wr s).isEnded = false ∧
    (serialBranch cfg (ReadResult.data chunk) wr s).state.toSock = s.toSock ++ [chunk] := by
  have hpos : (1 : Int) ≤ (chunk.length : Int) := by
    have : 0 < chunk.length := List.length_pos.mpr hne
    omega
  unfold serialBranch
  simp only [ReadResult.csize, ReadResult.into, hpos, if_true, hstrip, Bool.false_eq_true,
    if_false]
  cases hd : cfg.INDEBUG
  · simp only [Bool.false_eq_true, if_false]
    split
    · split <;> simp [Step.isEnded, Step.state, fill_firstBytes]
    · simp [Step.isEnded, Step.state, fill_firstBytes]
  · simp only [if_true]
    split
    · split <;> simp [Step.isEnded, Step.state, store_firstBytes, fill_firstBytes]
    · simp [Step.isEnded, Step.state, store_firstBytes, fill_firstBytes]

/-! ## readline on a complete line -/

theorem store_cell (c : Buffer) (k v j : Nat) (h : k < BUFFER_SIZE) :
    (c.store (k : Int) v).cell j = if j = k then v else c.cell j := by
  rw [store_inside _ _ _ h]

theorem store_overrun (c : Buffer) (k v : Nat) (h : k < BUFFER_SIZE) :
    (c.store (k : Int) v).overrun = c.overrun := by
  rw [store_inside _ _ _ h]

theorem storeBytes_overrun (l : List Nat) : ∀ (c : Buffer) (p : Nat),
    p + l.length ≤ BUFFER_SIZE → (Buffer.storeBytes c (p : Int) l).overrun = c.overrun := by
  induction l with
  | nil => intro c p _; rfl
  | cons b bs ih =>
    intro c p h
    simp only [List.length_cons] at h
    rw [Buffer.storeBytes]
    have e : (p : Int) + 1 = ((p + 1 : Nat) : Int) := by push_cast; rfl
    rw [e, ih _ _ (by omega), store_overrun _ _ _ (by omega)]

theorem storeBytes_cell (l : List Nat) : ∀ (c : Buffer) (p i : Nat),
    p + l.length ≤ BUFFER_SIZE →
    (Buffer.storeBytes c (p : Int) l).cell i
      = if p ≤ i ∧ i < p + l.length then l.getD (i - p) 0 else c.cell i := by
  induction l with
  | nil =>
    intro c p i _
    have : ¬ (p ≤ i ∧ i < p) := by omega
    simp [Buffer.storeBytes, this]
  | cons b bs ih =>
    intro c p i h
    simp only [List.length_cons] at h
    rw [Buffer.storeBytes]
    have e : (p : Int) + 1 = ((p + 1 : Nat) : Int) := by push_cast; rfl
    rw [e, ih _ _ _ (by omega), store_cell _ _ _ _ (by omega)]
    by_cases h1 : i = p
    · subst h1
      have : ¬ (i + 1 ≤ i ∧ i < i + 1 + bs.length) := by omega
      simp [this]
    · by_cases h2 : p + 1 ≤ i ∧ i < p + 1 + bs.length
      · have h3 : p ≤ i ∧ i < p + (b :: bs).length := by
          simp only [List.length_cons]; omega
        have h4 : i - p = (i - (p + 1)) + 1 := by omega
        rw [if_pos h2, if_pos h3, h4, List.getD_cons_succ]
      · have h3 : ¬ (p ≤ i ∧ i < p + (b :: bs).length) := by
          simp only [List.length_cons]; omega
        rw [if_neg h2, if_neg h3, if_neg h1]

theorem readlineLoop_line (rd : Nat → ByteRead) (l : List Nat) :
    ∀ (fuel n p : Nat) (c : Buffer), 1 ≤ n → l.length < fuel → (∀ b ∈ l, b ≠ 10) →
      (∀ j, j < l.length → rd (n - 1 + j) = ByteRead.byte (l.getD j 0)) →
      rd (n - 1 + l.length) = ByteRead.byte 10 →
      readlineLoop rd fuel n p c
        = (((n + l.length : Nat) : Int),
           ((Buffer.storeBytes c (p : Int) l).store ((p + l.length : Nat) : Int) 10).store
              ((p + l.length + 1 : Nat) : Int) 0) := by
  induction l with
  | nil =>
    intro fuel n p c hn hfuel _ _ hend
    obtain ⟨f, rfl⟩ : ∃ f, fuel = f + 1 := ⟨fuel - 1, by simp at hfuel; omega⟩
    simp only [List.length_nil, Nat.add_zero] at hend
    simp [readlineLoop, hend, Buffer.storeBytes]
  | cons b bs ih =>
    intro fuel n p c hn hfuel hnl hrd hend
    simp only [List.length_cons] at hfuel hend
    obtain ⟨f, rfl⟩ : ∃ f, fuel = f + 1 := ⟨fuel - 1, by omega⟩
    have h0 : rd (n - 1) = ByteRead.byte b := by
      have := hrd 0 (by simp)
      simpa using this
    have hb : b ≠ 10 := hnl b (by simp)
    have hrec := ih f (n + 1) (p + 1) (c.store (p : Int) b) (by omega) (by omega)
      (fun x hx => hnl x (by simp [hx]))
      (by
        intro j hj
        have := hrd (j + 1) (by simp; omega)
        have e : n - 1 + (j + 1) = n + 1 - 1 + j := by omega
        rw [e] at this
        simpa using this)
      (by
        have e : n - 1 + (bs.length + 1) = n + 1 - 1 + bs.length := by omega
        rw [e] at hend
        exact hend)
    rw [readlineLoop]
    simp only [h0, hb, if_false]
    rw [hrec]
    have e1 : n + 1 + bs.length = n + (b :: bs).length := by simp; omega
    have e2 : p + 1 + bs.length = p + (b :: bs).length := by simp; omega
    have e3 : ((p + 1 : Nat) : Int) = (p : Int) + 1 := by push_cast; rfl
    rw [e1, e2, e3]
    conv_rhs => rw [Buffer.storeBytes]

theorem takeWhile_stops (p : Nat → Bool) (l rest : List Nat) (z : Nat)
    (hl : ∀ b ∈ l, p b = true) (hz : p z = false) :
    (l ++ z :: rest).takeWhile p = l := by
  induction l with
  | nil => simp [List.takeWhile, hz]
  | cons a as ih =>
    have ha : p a = true := hl a (by simp)
    simp only [List.cons_append, List.takeWhile_cons, ha, if_true]
    rw [ih (fun b hb => hl b (by simp [hb]))]

theorem cstringAt_eq (c : Buffer) (i : Nat) (bytes : List Nat)
    (hfit : i + bytes.length < BUFFER_SIZE) (hnz : ∀ b ∈ bytes, b ≠ 0)
    (hcells : ∀ j, j < bytes.length → c.cell (i + j) = bytes.getD j 0)
    (hend : c.cell (i + bytes.length) = 0) :
    cstringAt c i = bytes := by
  unfold cstringAt
  obtain ⟨m, hm⟩ : ∃ m, BUFFER_SIZE - i = bytes.length + (m + 1) :=
    ⟨BUFFER_SIZE - i - bytes.length - 1, by omega⟩
  rw [hm, List.range_add, List.map_append]
  have h1 : (List.range bytes.length).map (fun j => c.cell (i + j)) = bytes := by
    apply List.ext_getElem
    · simp
    · intro j hj1 hj2
      simp only [List.getElem_map, List.getElem_range]
      rw [hcells j hj2, List.getD_eq_getElem _ _ hj2]
  rw [h1, List.range_succ_eq_map]
  simp only [List.map_cons, Nat.add_zero, hend]
  apply takeWhile_stops
  · intro b hb
    simpa using hnz b hb
  · simp

theorem auxShiftBaud_effect (cfg : Config) (ok : Bool) (cmd : List Nat) (s : Daemon) :
    (auxShiftBaud cfg ok cmd s).line
      = { ispeed := (parseBaudRates cmd).1, ospeed := (parseBaudRates cmd).1 } ∧
    (auxShiftBaud cfg ok cmd s).sockOpen = s.sockOpen ∧
    (auxShiftBaud cfg ok cmd s).serialOpen = s.serialOpen := by
  unfold auxShiftBaud
  cases ok <;> cases cfg.OUTDEBUG <;> simp

theorem readline_command_line (rd : Nat → ByteRead) (c : Buffer) (arg : List Nat)
    (hnl : ∀ b ∈ arg, b ≠ 10) (hlen : arg.length + 4 < BUFFER_SIZE)
    (hrd : ∀ j, j < (66 :: 32 :: (arg ++ [10])).length →
        rd j = ByteRead.byte ((66 :: 32 :: (arg ++ [10])).getD j 0)) :
    readline rd c BUFFER_SIZE
      = (((arg.length + 3 : Nat) : Int),
         ((Buffer.storeBytes c ((0 : Nat) : Int) (66 :: 32 :: arg)).store
            ((arg.length + 2 : Nat) : Int) 10).store ((arg.length + 3 : Nat) : Int) 0) := by
  have hB : BUFFER_SIZE = 1024 := rfl
  have h := readlineLoop_line rd (66 :: 32 :: arg) (BUFFER_SIZE - 1) 1 0 c (le_refl 1)
    (by simp only [List.length_cons]; omega)
    (by
      intro b hb
      simp only [List.mem_cons] at hb
      rcases hb with rfl | rfl | hb
      · decide
      · decide
      · exact hnl b hb)
    (by
      intro j hj
      have h1 := hrd j (by simp only [List.length_cons, List.length_append] at hj ⊢; omega)
      have e1 : 1 - 1 + j = j := by omega
      rw [e1, h1]
      have e2 : (66 :: 32 :: (arg ++ [10])) = (66 :: 32 :: arg) ++ [10] := rfl
      rw [e2, List.getD_append _ _ _ _ hj])
    (by
      have h1 := hrd (66 :: 32 :: arg).length
        (by simp only [List.length_cons, List.length_append]; omega)
      have e1 : 1 - 1 + (66 :: 32 :: arg).length = (66 :: 32 :: arg).length := by omega
      rw [e1, h1]
      have e2 : (66 :: 32 :: (arg ++ [10])) = (66 :: 32 :: arg) ++ [10] := rfl
      rw [e2, List.getD_append_right _ _ _ _ (le_refl _)]
      simp)
  unfold readline
  rw [h]
  have e1 : 1 + (66 :: 32 :: arg).length = arg.length + 3 := by
    simp only [List.length_cons]; omega
  have e2 : 0 + (66 :: 32 :: arg).length = arg.length + 2 := by
    simp only [List.length_cons]; omega
  rw [e1, e2]

theorem command_line_cells (c : Buffer) (arg : List Nat) (hlen : arg.length + 4 < BUFFER_SIZE)
    (j : Nat) :
    ((((Buffer.storeBytes c ((0 : Nat) : Int) (66 :: 32 :: arg)).store
          ((arg.length + 2 : Nat) : Int) 10).store ((arg.length + 3 : Nat) : Int) 0).store
          ((arg.length + 3 : Nat) : Int) 0).cell j
      = if j = arg.length + 3 then 0
        else if j = arg.length + 2 then 10
        else if j < arg.length + 2 then (66 :: 32 :: arg).getD j 0
        else c.cell j := by
  rw [store_cell _ _ _ _ (by omega), store_cell _ _ _ _ (by omega),
    store_cell _ _ _ _ (by omega),
    storeBytes_cell _ _ _ _ (by simp only [List.length_cons]; omega)]
  simp only [List.length_cons, Nat.zero_le, true_and, Nat.zero_add, Nat.sub_zero]
  by_cases h1 : j = arg.length + 3
  · simp [h1]
  · simp only [h1, if_false]

set_option maxRecDepth 20000 in
theorem auxBranch_baud_line (cfg : Config) (ok : Bool) (s : Daemon) (rd : Nat → ByteRead)
    (arg : List Nat) (hnl : ∀ b ∈ arg, b ≠ 10) (hnz : ∀ b ∈ arg, b ≠ 0)
    (hlen : arg.length + 4 < BUFFER_SIZE)
    (hrd : ∀ j, j < (66 :: 32 :: (arg ++ [10])).length →
        rd j = ByteRead.byte ((66 :: 32 :: (arg ++ [10])).getD j 0)) :
    (auxBranch cfg rd ok s).isEnded = false ∧
    (auxBranch cfg rd ok s).state.line
      = { ispeed := (parseBaudRates (arg ++ [10])).1,
          ospeed := (parseBaudRates (arg ++ [10])).1 } ∧
    (auxBranch cfg rd ok s).state.sockOpen = s.sockOpen ∧
    (auxBranch cfg rd ok s).state.serialOpen = s.serialOpen := by
  have hR := readline_command_line rd s.c arg hnl hlen hrd
  have hcell := command_line_cells s.c arg hlen
  have h0 := hcell 0
  have h1 := hcell 1
  have e0 : ¬ (0 = arg.length + 3) := by omega
  have e0b : ¬ (0 = arg.length + 2) := by omega
  have e1 : ¬ (1 = arg.length + 3) := by omega
  have e1b : ¬ (1 = arg.length + 2) := by omega
  have e1c : 1 < arg.length + 2 := by omega
  have e0c : 0 < arg.length + 2 := by omega
  rw [if_neg e0, if_neg e0b, if_pos e0c] at h0
  rw [if_neg e1, if_neg e1b, if_pos e1c] at h1
  simp only [List.getD_cons_zero, List.getD_cons_succ] at h0 h1
  have hdata : cstringAt ((((Buffer.storeBytes s.c ((0 : Nat) : Int) (66 :: 32 :: arg)).store
          ((arg.length + 2 : Nat) : Int) 10).store ((arg.length + 3 : Nat) : Int) 0).store
          ((arg.length + 3 : Nat) : Int) 0) 2 = arg ++ [10] := by
    apply cstringAt_eq
    · simp only [List.length_append, List.length_singleton]; omega
    · intro b hb
      simp only [List.mem_append, List.mem_singleton] at hb
      rcases hb with hb | rfl
      · exact hnz b hb
      · decide
    · intro j hj
      simp only [List.length_append, List.length_singleton] at hj
      rw [hcell (2 + j)]
      have a1 : ¬ (2 + j = arg.length + 3) := by omega
      rw [if_neg a1]
      by_cases a2 : j = arg.length
      · subst a2
        have a3 : 2 + arg.length = arg.length + 2 := by omega
        rw [if_pos a3, List.getD_append_right _ _ _ _ (le_refl _)]
        simp
      · have a3 : ¬ (2 + j = arg.length + 2) := by omega
        have a4 : 2 + j < arg.length + 2 := by omega
        have a5 : 2 + j = j + 1 + 1 := by omega
        rw [if_neg a3, if_pos a4, a5, List.getD_cons_succ, List.getD_cons_succ,
          List.getD_append _ _ _ _ (by omega)]
    · rw [hcell]
      have a1 : 2 + (arg ++ [10]).length = arg.length + 3 := by
        simp only [List.length_append, List.length_singleton]; omega
      rw [if_pos a1]
  have hpos : (1 : Int) ≤ ((arg.length + 3 : Nat) : Int) := by omega
  have heff := auxShiftBaud_effect cfg ok (arg ++ [10])
  unfold auxBranch
  simp only [hR, hpos, if_true, h0, h1, hdata, ne_eq, not_true_eq_false, if_false]
  cases cfg.INDEBUG
  · simp only [Bool.false_eq_true, if_false, Step.isEnded, Step.state, true_and]
    exact heff _
  · simp only [if_true, Step.isEnded, Step.state, true_and]
    exact heff _

theorem iteration_aux_only (cfg : Config) (ok : Bool) (rd : Nat → ByteRead) (s : Daemon) :
    iteration cfg { Wake.idle with aux := some rd, confirmOk := ok } s
      = auxBranch cfg rd ok s := by
  unfold iteration
  simp only [Wake.idle]
  cases auxBranch cfg rd ok s <;> rfl

/-! ## Failed reads -/

theorem into_failed (r : ReadResult) (c : Buffer) (h : r.csize < 1) : r.into c = c := by
  cases r with
  | data bytes =>
    have h0 : bytes = [] := by
      cases bytes with
      | nil => rfl
      | cons a l => simp [ReadResult.csize] at h; omega
    subst h0
    cases c
    simp [ReadResult.into, Buffer.fill]
  | eof => rfl
  | err => rfl

theorem sockBranch_failed (cfg : Config) (r : ReadResult) (wr : Int) (s : Daemon)
    (h : r.csize < 1) : sockBranch cfg r wr s = Step.ended s := by
  have h2 : ¬ (1 ≤ r.csize) := by omega
  unfold sockBranch
  simp only [h2, if_false, into_failed r s.c h]

theorem serialBranch_failed (cfg : Config) (r : ReadResult) (wr : Int) (s : Daemon)
    (h : r.csize < 1) : serialBranch cfg r wr s = Step.ended s := by
  have h2 : ¬ (1 ≤ r.csize) := by omega
  unfold serialBranch
  simp only [h2, if_false, into_failed r s.c h]

theorem auxBranch_failed (cfg : Config) (rd : Nat → ByteRead) (ok : Bool) (s : Daemon)
    (h : (readline rd s.c BUFFER_SIZE).1 < 1) :
    (auxBranch cfg rd ok s).isEnded = true := by
  have h2 : ¬ (1 ≤ (readline rd s.c BUFFER_SIZE).1) := by omega
  unfold auxBranch
  simp only [h2, if_false, Step.isEnded]

theorem sockStripLoop_open (cfg : Config) (n : Nat) : ∀ (x : Nat) (s : Daemon),
    (sockStripLoop cfg n x s).serialOpen = s.serialOpen ∧
    (sockStripLoop cfg n x s).sockOpen = s.sockOpen := by
  induction n with
  | zero => intro x s; exact ⟨rfl, rfl⟩
  | succ n ih =>
    intro x s
    rw [sockStripLoop]
    simp only
    split
    · split
      · rw [(ih _ _).1, (ih _ _).2]; exact ⟨rfl, rfl⟩
      · rw [(ih _ _).1, (ih _ _).2]; exact ⟨rfl, rfl⟩
    · rw [(ih _ _).1, (ih _ _).2]; exact ⟨rfl, rfl⟩

set_option maxRecDepth 20000 in
theorem serialStripLoop_open (cfg : Config) (n : Nat) : ∀ (x : Nat) (s : Daemon),
    (serialStripLoop cfg n x s).serialOpen = s.serialOpen ∧
    (serialStripLoop cfg n x s).sockOpen = s.sockOpen := by
  induction n with
  | zero => intro x s; exact ⟨rfl, rfl⟩
  | succ n ih =>
    intro x s
    rw [serialStripLoop]
    simp only
    split
    · split
      · rw [(ih _ _).1, (ih _ _).2]; exact ⟨rfl, rfl⟩
      · rw [(ih _ _).1, (ih _ _).2]; exact ⟨rfl, rfl⟩
    · rw [(ih _ _).1, (ih _ _).2]; exact ⟨rfl, rfl⟩

set_option maxRecDepth 20000 in
theorem sockBranch_open (cfg : Config) (r : ReadResult) (wr : Int) (s : Daemon) :
    (sockBranch cfg r wr s).state.serialOpen = s.serialOpen ∧
    (sockBranch cfg r wr s).state.sockOpen = s.sockOpen := by
  unfold sockBranch
  simp only
  split
  · cases cfg.STRIP <;> cases cfg.OUTDEBUG <;>
      simp [Step.state, (sockStripLoop_open cfg _ _ _).1, (sockStripLoop_open cfg _ _ _).2]
  · exact ⟨rfl, rfl⟩

set_option maxRecDepth 20000 in
theorem serialBranch_open (cfg : Config) (r : ReadResult) (wr : Int) (s : Daemon) :
    (serialBranch cfg r wr s).state.serialOpen = s.serialOpen ∧
    (serialBranch cfg r wr s).state.sockOpen = s.sockOpen := by
  unfold serialBranch
  simp only
  split
  · cases cfg.STRIP <;> cases cfg.INDEBUG <;>
      simp only [Step.state, Bool.false_eq_true, if_false, if_true] <;>
      split <;> try split
    all_goals
      simp [(serialStripLoop_open cfg _ _ _).1, (serialStripLoop_open cfg _ _ _).2]
  · exact ⟨rfl, rfl⟩

set_option maxRecDepth 20000 in
theorem auxBranch_open (cfg : Config) (rd : Nat → ByteRead) (ok : Bool) (s : Daemon) :
    (auxBranch cfg rd ok s).state.serialOpen = s.serialOpen ∧
    (auxBranch cfg rd ok s).state.sockOpen = s.sockOpen := by
  unfold auxBranch
  simp only
  split
  · split
    · simp only [Step.state]
      rw [(auxShiftBaud_effect _ _ _ _).2.1, (auxShiftBaud_effect _ _ _ _).2.2]
      split <;> split <;> exact ⟨rfl, rfl⟩
    · simp only [Step.state]
      split <;> exact ⟨rfl, rfl⟩
  · exact ⟨rfl, rfl⟩

theorem iteration_open (cfg : Config) (w : Wake) (s : Daemon) :
    (iteration cfg w s).state.serialOpen = s.serialOpen := by
  unfold iteration
  cases ha : w.aux with
  | none =>
    simp only
    cases hs : w.sock with
    | none =>
      simp only
      cases hr : w.serial with
      | none => rfl
      | some r => exact (serialBranch_open cfg r _ s).1
    | some r1 =>
      simp only
      have h1 := (sockBranch_open cfg r1 w.serialWrite s).1
      cases hb : sockBranch cfg r1 w.serialWrite s with
      | ended s1 => rw [hb] at h1; exact h1
      | next s1 =>
        rw [hb] at h1
        simp only [Step.state] at h1
        simp only
        cases hr : w.serial with
        | none => exact h1
        | some r => exact ((serialBranch_open cfg r _ s1).1).trans h1
  | some rd =>
    simp only
    have h0 := (auxBranch_open cfg rd w.confirmOk s).1
    cases hx : auxBranch cfg rd w.confirmOk s with
    | ended s0 => rw [hx] at h0; exact h0
    | next s0 =>
      rw [hx] at h0
      simp only [Step.state] at h0
      simp only
      cases hs : w.sock with
      | none =>
        simp only
        cases hr : w.serial with
        | none => exact h0
        | some r => exact ((serialBranch_open cfg r _ s0).1).trans h0
      | some r1 =>
        simp only
        have h1 := (sockBranch_open cfg r1 w.serialWrite s0).1
        cases hb : sockBranch cfg r1 w.serialWrite s0 with
        | ended s1 => rw [hb] at h1; exact h1.trans h0
        | next s1 =>
          rw [hb] at h1
          simp only [Step.state] at h1
          simp only
          cases hr : w.serial with
          | none => exact h1.trans h0
          | some r => exact (((serialBranch_open cfg r _ s1).1).trans h1).trans h0

theorem endsSession_of_isEnded (cfg : Config) (w : Wake) (s : Daemon)
    (h : (iteration cfg w s).isEnded = true) : EndsSession cfg s w := by
  have ho := iteration_open cfg w s
  unfold EndsSession
  simp only [Process.step]
  cases hi : iteration cfg w s with
  | next s1 => rw [hi] at h; simp [Step.isEnded] at h
  | ended s1 =>
    rw [hi] at ho
    exact ⟨restart s1, rfl, rfl, ho⟩

theorem iteration_aux_failed (cfg : Config) (w : Wake) (s : Daemon) (rd : Nat → ByteRead)
    (ha : w.aux = some rd) (h : (readline rd s.c BUFFER_SIZE).1 < 1) :
    (iteration cfg w s).isEnded = true := by
  have h1 := auxBranch_failed cfg rd w.confirmOk s h
  unfold iteration
  simp only [ha]
  cases hx : auxBranch cfg rd w.confirmOk s with
  | ended s0 => rfl
  | next s0 => rw [hx] at h1; simp [Step.isEnded] at h1

theorem iteration_sock_failed (cfg : Config) (w : Wake) (s : Daemon) (r : ReadResult)
    (hs : w.sock = some r) (h : r.csize < 1) :
    (iteration cfg w s).isEnded = true := by
  unfold iteration
  simp only [hs, sockBranch_failed cfg r _ _ h]
  split <;> rfl

theorem iteration_serial_failed (cfg : Config) (w : Wake) (s : Daemon) (r : ReadResult)
    (hr : w.serial = some r) (h : r.csize < 1) :
    (iteration cfg w s).isEnded = true := by
  unfold iteration
  simp only [hr, serialBranch_failed cfg r _ _ h]
  split
  · rfl
  · split <;> rfl

theorem step_serial_failed_eq_sock_failed (cfg : Config) (w : Wake) (s : Daemon)
    (r1 r2 : ReadResult) (h1 : r1.csize < 1) (h2 : r2.csize < 1) :
    Process.step cfg (Process.bridging s)
        (Event.wake { w with sock := none, serial := some r2 })
      = Process.step cfg (Process.bridging s) (Event.wake { w with sock := some r1 }) := by
  simp only [Process.step, iteration, sockBranch_failed cfg r1 _ _ h1,
    serialBranch_failed cfg r2 _ _ h2]

theorem readline_eof_first (rd : Nat → ByteRead) (c : Buffer) (h : rd 0 = ByteRead.eof) :
    readline rd c BUFFER_SIZE = (0, c) := by
  have hB : BUFFER_SIZE - 1 = 1022 + 1 := rfl
  unfold readline
  rw [hB, readlineLoop]
  simp [h]

theorem readline_err_first (rd : Nat → ByteRead) (c : Buffer) (h : rd 0 = ByteRead.err) :
    readline rd c BUFFER_SIZE = (-1, c) := by
  have hB : BUFFER_SIZE - 1 = 1022 + 1 := rfl
  unfold readline
  rw [hB, readlineLoop]
  simp [h]

/-! ## The argument loop -/

theorem parseBaudRates_messages (v : List Nat) :
    ((parseBaudRates v).1 ≠ 0 → (parseBaudRates v).2 = []) ∧
    ((parseBaudRates v).1 = 0 → (parseBaudRates v).2 = [Msg.unknownBaud]) := by
  unfold parseBaudRates
  simp only
  repeat' split
  all_goals first
    | exact ⟨fun _ => rfl, fun h => absurd h (by decide)⟩
    | exact ⟨fun h => absurd rfl h, fun _ => rfl⟩

theorem scanArgs_wellFormed : ∀ (n : Nat) (words : List String), words.length ≤ n →
    wellFormedArgs words = true → ∀ (o : Opts) (out : List Msg),
    (baudValuesOk words = true →
      ∃ o1, scanArgs words o out = ArgScan.done o1 out ∧
        o1.args = o.args + (requiredCount words : Int)) ∧
    (baudValuesOk words = false →
      scanArgs words o out = ArgScan.exit 1 (out ++ [Msg.unknownBaud])) := by
  intro n
  induction n with
  | zero =>
    intro words hlen _ o out
    have : words = [] := List.length_eq_zero.mp (by omega)
    subst this
    simp [scanArgs, baudValuesOk, requiredCount]
  | succ n ih =>
    intro words hlen hwf o out
    cases words with
    | nil => simp [scanArgs, baudValuesOk, requiredCount]
    | cons a rest =>
      simp only [List.length_cons] at hlen
      by_cases h1 : a = "-serial"
      · subst h1
        cases rest with
        | nil => simp [wellFormedArgs] at hwf
        | cons v rest2 =>
          simp only [List.length_cons] at hlen
          simp only [wellFormedArgs, if_true, Bool.and_eq_true, decide_eq_true_eq] at hwf
          have hv : ¬ (100 ≤ v.utf8ByteSize) := by omega
          have := ih rest2 (by omega) hwf.2
            { o with SERIAL := some v, args := o.args + 1 } out
          simp only [scanArgs, if_true, hv, if_false, baudValuesOk, requiredCount,
            true_or, or_true]
          simp only [show ("-serial" : String) ≠ "-baud" by decide, if_false]
          refine ⟨fun hb => ?_, fun hb => this.2 hb⟩
          obtain ⟨o1, e1, e2⟩ := this.1 hb
          exact ⟨o1, e1, by rw [e2]; push_cast; ring⟩
      · by_cases h2 : a = "-port"
        · subst h2
          cases rest with
          | nil => simp [wellFormedArgs] at hwf
          | cons v rest2 =>
            simp only [List.length_cons] at hlen
            simp only [wellFormedArgs, h1, if_false, true_or, if_true] at hwf
            have := ih rest2 (by omega) hwf
              { o with SOCKET_PORT := atoi (cbytes v), args := o.args + 1 } out
            simp only [scanArgs, h1, if_false, if_true, baudValuesOk, requiredCount,
              true_or, or_true]
            simp only [show ("-port" : String) ≠ "-baud" by decide, if_false]
            refine ⟨fun hb => ?_, fun hb => this.2 hb⟩
            obtain ⟨o1, e1, e2⟩ := this.1 hb
            exact ⟨o1, e1, by rw [e2]; push_cast; ring⟩
        · by_cases h3 : a = "-baud"
          · subst h3
            cases rest with
            | nil => simp [wellFormedArgs] at hwf
            | cons v rest2 =>
              simp only [List.length_cons] at hlen
              simp only [wellFormedArgs, h1, h2, if_false, true_or, or_true, if_true] at hwf
              have hm := parseBaudRates_messages (cbytes v)
              simp only [scanArgs, h1, h2, if_false, if_true, baudValuesOk, requiredCount,
                true_or, or_true, Bool.and_eq_true, decide_eq_true_eq]
              by_cases hz : (parseBaudRates (cbytes v)).1 = 0
              · simp only [hz, if_true, hm.2 hz]
                refine ⟨fun hb => ?_, fun _ => ?_⟩
                · exact absurd rfl hb.1
                · trivial
              · have := ih rest2 (by omega) hwf
                  { o with BAUD := (parseBaudRates (cbytes v)).1, args := o.args + 1 } out
                simp only [hz, if_false, hm.1 hz, List.append_nil]
                refine ⟨fun hb => ?_, fun hb => this.2 ?_⟩
                · obtain ⟨o1, e1, e2⟩ := this.1 hb.2
                  exact ⟨o1, e1, by rw [e2]; push_cast; ring⟩
                · simpa [hz] using hb
          · by_cases h4 : a = "-aux"
            · subst h4
              cases rest with
              | nil => simp [wellFormedArgs] at hwf
              | cons v rest2 =>
                simp only [List.length_cons] at hlen
                simp only [wellFormedArgs, h1, h2, h3, if_false, or_true, if_true] at hwf
                have := ih rest2 (by omega) hwf { o with AUX_PORT := atoi (cbytes v) } out
                simp only [scanArgs, h1, h2, h3, if_false, if_true, baudValuesOk,
                  requiredCount, or_true, or_false]
                exact this
            · have hwf2 : wellFormedArgs rest = true := by
                rw [wellFormedArgs.eq_def] at hwf
                simp only [h1, h2, h3, h4, if_false, or_false] at hwf
                split at hwf
                · exact hwf
                · simp at hwf
              have hplain : a = "-strip" ∨ a = "-indebug" ∨ a = "-outdebug" ∨ a = "-debug" ∨
                  a = "-nonblock" := by
                rw [wellFormedArgs.eq_def] at hwf
                simp only [h1, h2, h3, h4, if_false, or_false] at hwf
                split at hwf
                · assumption
                · simp at hwf
              have hb0 : baudValuesOk (a :: rest) = baudValuesOk rest := by
                rw [baudValuesOk.eq_def]
                simp only [h1, h2, h3, h4, if_false, or_false]
              have hc0 : requiredCount (a :: rest) = requiredCount rest := by
                rw [requiredCount.eq_def]
                simp only [h1, h2, h3, h4, if_false, or_false]
              rw [hb0, hc0]
              have hstep : ∀ o2 : Opts,
                  (baudValuesOk rest = true →
                    ∃ o1, scanArgs rest o2 out = ArgScan.done o1 out ∧
                      o1.args = o2.args + (requiredCount rest : Int)) ∧
                  (baudValuesOk rest = false →
                    scanArgs rest o2 out = ArgScan.exit 1 (out ++ [Msg.unknownBaud])) :=
                fun o2 => ih rest (by omega) hwf2 o2 out
              rcases hplain with h | h | h | h | h
              · have e : scanArgs (a :: rest) o out
                    = scanArgs rest { o with STRIP := true } out := by
                  rw [scanArgs.eq_def]
                  subst h
                  simp only [h1, h2, h3, h4, if_false, if_true]
                rw [e]
                exact hstep _
              · have e : scanArgs (a :: rest) o out
                    = scanArgs rest { o with INDEBUG := true } out := by
                  rw [scanArgs.eq_def]
                  subst h
                  simp only [h1, h2, h3, h4, if_false, if_true,
                    show ("-indebug" : String) ≠ "-strip" by decide]
                rw [e]
                exact hstep _
              · have e : scanArgs (a :: rest) o out
                    = scanArgs rest { o with OUTDEBUG := true } out := by
                  rw [scanArgs.eq_def]
                  subst h
                  simp only [h1, h2, h3, h4, if_false, if_true,
                    show ("-outdebug" : String) ≠ "-strip" by decide,
                    show ("-outdebug" : String) ≠ "-indebug" by decide]
                rw [e]
                exact hstep _
              · have e : scanArgs (a :: rest) o out
                    = scanArgs rest { o with INDEBUG := true, OUTDEBUG := true } out := by
                  rw [scanArgs.eq_def]
                  subst h
                  simp only [h1, h2, h3, h4, if_false, if_true,
                    show ("-debug" : String) ≠ "-strip" by decide,
                    show ("-debug" : String) ≠ "-indebug" by decide,
                    show ("-debug" : String) ≠ "-outdebug" by decide]
                rw [e]
                exact hstep _
              · have e : scanArgs (a :: rest) o out
                    = scanArgs rest { o with NONBLOCK := true } out := by
                  rw [scanArgs.eq_def]
                  subst h
                  simp only [h1, h2, h3, h4, if_false, if_true,
                    show ("-nonblock" : String) ≠ "-strip" by decide,
                    show ("-nonblock" : String) ≠ "-indebug" by decide,
                    show ("-nonblock" : String) ≠ "-outdebug" by decide,
                    show ("-nonblock" : String) ≠ "-debug" by decide]
                rw [e]
                exact hstep _

theorem startup_of_scan (argv0 : String) (words : List String) :
    startup (argv0 :: words)
      = match scanArgs words Opts.initial [] with
        | .fault => .fault
        | .exit code out => .exited code out
        | .done o out =>
          if o.args < 3 then .exited 1 (out ++ [Msg.usage])
          else if o.INDEBUG || o.OUTDEBUG then .makeSocket o (out ++ [Msg.debugModeOn])
          else .makeSocket o out := rfl

/-! ## Claims -/

/-- C1: with stripping enabled, for every non-empty chunk of at most 1024 bytes read from
the data socket the branch does not end the session and hands to the serial write exactly
the chunk with every line feed (byte 10) removed, the other bytes in their order; the
length handed over is the chunk length minus the number of line feeds. -/
theorem C1_socket_to_serial_strip (cfg : Config) (s : Daemon) (chunk : List Nat) (wr : Int)
    (hstrip : cfg.STRIP = true) (hne : chunk ≠ []) (hlen : chunk.length ≤ BUFFER_SIZE) :
    (sockBranch cfg (ReadResult.data chunk) wr s).isEnded = false ∧
    (sockBranch cfg (ReadResult.data chunk) wr s).state.toSerial
      = s.toSerial ++ [chunk.filter (fun b => b ≠ 10)] ∧
    (chunk.filter (fun b => b ≠ 10)).length = chunk.length - chunk.count 10 :=
  ⟨(sockBranch_strip cfg s chunk wr hstrip hne hlen).1,
   (sockBranch_strip cfg s chunk wr hstrip hne hlen).2,
   filter_ne_length chunk 10⟩

/-- The statement of C1 at the chunk `a \n \n b \n`. -/
theorem C1_socket_to_serial_strip_witness :
    (sockBranch Config.strip (ReadResult.data [97, 10, 10, 98, 10]) 2 Daemon.sample).isEnded
      = false ∧
    (sockBranch Config.strip (ReadResult.data [97, 10, 10, 98, 10]) 2 Daemon.sample).state.toSerial
      = Daemon.sample.toSerial ++ [[97, 10, 10, 98, 10].filter (fun b => b ≠ 10)] ∧
    ([97, 10, 10, 98, 10].filter (fun b => b ≠ 10)).length
      = [97, 10, 10, 98, 10].length - [97, 10, 10, 98, 10].count 10 :=
  C1_socket_to_serial_strip Config.strip Daemon.sample [97, 10, 10, 98, 10] 2 rfl
    (by decide) (by decide)

/-- C2, the code at a failing input: stripping is on, the data socket delivers the one
byte `x`, which leaves the shared index `y` at 1, and the serial line then delivers
`a b \r`.  The serial branch copies every byte that is not a carriage return to `c[y]`,
so the bytes handed to the data-socket write are `a a \n` and not `a b \n`. -/
theorem C2_serial_strip_uses_stale_index :
    (iteration Config.strip
        { Wake.idle with sock := some (ReadResult.data [120]), serialWrite := 1,
                         serial := some (ReadResult.data [97, 98, 13]), sockWrite := 3 }
        Daemon.sample).state.toSock = [[97, 97, 10]] ∧
    [97, 98, 13].map (fun b => if b = 13 then 10 else b) = [97, 98, 10] := by
  decide

/-- C3: with stripping disabled, whatever the two debug switches are, a non-empty chunk
of at most 1024 bytes read from the data socket is handed unchanged to the serial write,
and a non-empty chunk of at most 1024 bytes read from the serial line is handed unchanged
to the data-socket write; neither branch ends the session.  With tracing on the
terminator is stored at index `csize`, behind the chunk (for a chunk of 1024 bytes behind
the array, see C10), so no byte of the chunk is touched. -/
theorem C3_passthrough_identity (cfg : Config) (s : Daemon) (chunk : List Nat) (wr : Int)
    (hstrip : cfg.STRIP = false) (hne : chunk ≠ []) (_hlen : chunk.length ≤ BUFFER_SIZE) :
    ((sockBranch cfg (ReadResult.data chunk) wr s).isEnded = false ∧
      (sockBranch cfg (ReadResult.data chunk) wr s).state.toSerial = s.toSerial ++ [chunk]) ∧
    ((serialBranch cfg (ReadResult.data chunk) wr s).isEnded = false ∧
      (serialBranch cfg (ReadResult.data chunk) wr s).state.toSock = s.toSock ++ [chunk]) :=
  ⟨sockBranch_plain cfg s chunk wr hstrip hne, serialBranch_plain cfg s chunk wr hstrip hne⟩

/-- The statement of C3 at the chunk `a \r \n b` with tracing on. -/
theorem C3_passthrough_identity_witness :
    ((sockBranch Config.debug (ReadResult.data [97, 13, 10, 98]) 4 Daemon.sample).isEnded
        = false ∧
      (sockBranch Config.debug (ReadResult.data [97, 13, 10, 98]) 4 Daemon.sample).state.toSerial
        = Daemon.sample.toSerial ++ [[97, 13, 10, 98]]) ∧
    ((serialBranch Config.debug (ReadResult.data [97, 13, 10, 98]) 4 Daemon.sample).isEnded
        = false ∧
      (serialBranch Config.debug (ReadResult.data [97, 13, 10, 98]) 4 Daemon.sample).state.toSock
        = Daemon.sample.toSock ++ [[97, 13, 10, 98]]) :=
  C3_passthrough_identity Config.debug Daemon.sample [97, 13, 10, 98] 4 rfl
    (by decide) (by decide)

set_option maxRecDepth 100000 in
/-- C4, the code at a failing input: the aux line `BX19200\n` has no space in second
position; the branch prints the malformed-command line and then runs the baud change all
the same, taking the serial line from 9600 to 19200 baud. -/
theorem C4_malformed_line_changes_baud :
    Daemon.sample.line = { ispeed := B9600, ospeed := B9600 } ∧
    (auxBranch Config.strip (streamOf (cbytes "BX19200\n")) true Daemon.sample).state.line
      = { ispeed := B19200, ospeed := B19200 } ∧
    (auxBranch Config.strip (streamOf (cbytes "BX19200\n")) true Daemon.sample).state.out
      = [Msg.malformedAux] := by
  decide

set_option maxRecDepth 100000 in
/-- C5, the code at a failing input: on the aux line `B 12345\n` the rate is not in the
table, `parseBaudRates` prints its error and returns 0, and `auxShiftBaud` sets both
speeds of the serial line to that 0; the line was at 9600 baud before. -/
theorem C5_unknown_rate_sets_speed_zero :
    Daemon.sample.line = { ispeed := B9600, ospeed := B9600 } ∧
    (auxBranch Config.strip (streamOf (cbytes "B 12345\n")) true Daemon.sample).state.line
      = { ispeed := 0, ospeed := 0 } ∧
    (auxBranch Config.strip (streamOf (cbytes "B 12345\n")) true Daemon.sample).state.out
      = [Msg.unknownBaud] ∧
    (auxBranch Config.strip (streamOf (cbytes "B 12345\n")) true Daemon.sample).isEnded
      = false := by
  decide

set_option maxRecDepth 20000 in
/-- C6: for each of the eight rates of the table, the aux line made of `B`, a space, the
decimal digits of the rate and a line feed sets the input and the output speed of the
serial line to the constant of that rate; the branch does not end the session, the data
connection stays as it is, and a wake-up in which only the aux descriptor is ready leaves
the process bridging.  `parseBaudRates` maps the digits to that constant, which is not
zero and differs from the constant of every other rate. -/
theorem C6_supported_rate_sets_both_speeds (cfg : Config) (ok : Bool) (s : Daemon)
    (rd : Nat → ByteRead) (r : Nat) (k : Int) (hr : (r, k) ∈ supportedRates)
    (hrd : ∀ j, j < (baudLine r).length → rd j = ByteRead.byte ((baudLine r).getD j 0)) :
    (auxBranch cfg rd ok s).isEnded = false ∧
    (auxBranch cfg rd ok s).state.line = { ispeed := k, ospeed := k } ∧
    (auxBranch cfg rd ok s).state.sockOpen = s.sockOpen ∧
    (∃ s1, Process.step cfg (Process.bridging s)
          (Event.wake { Wake.idle with aux := some rd, confirmOk := ok }) = Process.bridging s1 ∧
        s1.line = { ispeed := k, ospeed := k } ∧ s1.sockOpen = s.sockOpen) ∧
    (parseBaudRates (decimal r)).1 = k ∧ k ≠ 0 ∧
    ∀ r2 k2, (r2, k2) ∈ supportedRates → r2 ≠ r → k2 ≠ k := by
  have hB : BUFFER_SIZE = 1024 := rfl
  have main : ∀ (hnl : ∀ b ∈ decimal r, b ≠ 10) (hnz : ∀ b ∈ decimal r, b ≠ 0)
      (hlen : (decimal r).length + 4 < BUFFER_SIZE)
      (hp : (parseBaudRates (decimal r ++ [10])).1 = k),
      (auxBranch cfg rd ok s).isEnded = false ∧
      (auxBranch cfg rd ok s).state.line = { ispeed := k, ospeed := k } ∧
      (auxBranch cfg rd ok s).state.sockOpen = s.sockOpen ∧
      (∃ s1, Process.step cfg (Process.bridging s)
          (Event.wake { Wake.idle with aux := some rd, confirmOk := ok }) = Process.bridging s1 ∧
        s1.line = { ispeed := k, ospeed := k } ∧ s1.sockOpen = s.sockOpen) := by
    intro hnl hnz hlen hp
    have h := auxBranch_baud_line cfg ok s rd (decimal r) hnl hnz hlen hrd
    rw [hp] at h
    obtain ⟨h1, h2, h3, -⟩ := h
    refine ⟨h1, h2, h3, ?_⟩
    simp only [Process.step, iteration_aux_only]
    cases hres : auxBranch cfg rd ok s with
    | next s1 =>
      rw [hres] at h2 h3
      exact ⟨s1, rfl, h2, h3⟩
    | ended s1 =>
      rw [hres] at h1
      simp [Step.isEnded] at h1
  have table : ∀ p ∈ supportedRates,
      (∀ b ∈ decimal p.1, b ≠ 10) ∧ (∀ b ∈ decimal p.1, b ≠ 0) ∧
      (decimal p.1).length + 4 < BUFFER_SIZE ∧
      (parseBaudRates (decimal p.1 ++ [10])).1 = p.2 ∧
      (parseBaudRates (decimal p.1)).1 = p.2 ∧ p.2 ≠ 0 ∧
      ∀ q ∈ supportedRates, q.1 ≠ p.1 → q.2 ≠ p.2 := by
    decide
  obtain ⟨t1, t2, t3, t4, t5, t6, t7⟩ := table (r, k) hr
  obtain ⟨m1, m2, m3, m4⟩ := main t1 t2 t3 t4
  exact ⟨m1, m2, m3, m4, t5, t6, fun r2 k2 h2 hne => t7 (r2, k2) h2 hne⟩

/-- The statement of C6 for the line `B 19200\n` sent by a peer that then closes. -/
theorem C6_supported_rate_sets_both_speeds_witness :
    (19200, B19200) ∈ supportedRates ∧
    (∀ j, j < (baudLine 19200).length →
      streamOf (baudLine 19200) j = ByteRead.byte ((baudLine 19200).getD j 0)) ∧
    ((auxBranch Config.debug (streamOf (baudLine 19200)) true Daemon.sample).isEnded = false ∧
    (auxBranch Config.debug (streamOf (baudLine 19200)) true Daemon.sample).state.line
      = { ispeed := B19200, ospeed := B19200 } ∧
    (auxBranch Config.debug (streamOf (baudLine 19200)) true Daemon.sample).state.sockOpen
      = Daemon.sample.sockOpen ∧
    (∃ s1, Process.step Config.debug (Process.bridging Daemon.sample)
          (Event.wake { Wake.idle with aux := some (streamOf (baudLine 19200)),
                                       confirmOk := true }) = Process.bridging s1 ∧
        s1.line = { ispeed := B19200, ospeed := B19200 } ∧
        s1.sockOpen = Daemon.sample.sockOpen) ∧
    (parseBaudRates (decimal 19200)).1 = B19200 ∧ B19200 ≠ 0 ∧
    ∀ r2 k2, (r2, k2) ∈ supportedRates → r2 ≠ 19200 → k2 ≠ B19200) :=
  ⟨by decide, by decide,
   C6_supported_rate_sets_both_speeds Config.debug true Daemon.sample
     (streamOf (baudLine 19200)) 19200 B19200 (by decide) (by decide)⟩

/-- C7: in the bridging state, a descriptor that is in the ready set and whose read
reports end of file or an error (`readline` returning less than 1 for aux, `read`
returning less than 1 for the data socket and the serial line) ends the session in that
iteration: the process goes to waiting for a new data connection without exiting, the
data connection is closed and the serial descriptor is left as it was.  The process after
a failed serial read is the same as after a failed data-socket read.  `readline` reports
0 when the first read meets end of file and -1 when it fails. -/
theorem C7_failed_read_ends_session (cfg : Config) (s : Daemon) (w : Wake) :
    (∀ rd, w.aux = some rd → (readline rd s.c BUFFER_SIZE).1 < 1 → EndsSession cfg s w) ∧
    (∀ r, w.sock = some r → r.csize < 1 → EndsSession cfg s w) ∧
    (∀ r, w.serial = some r → r.csize < 1 → EndsSession cfg s w) ∧
    (∀ r1 r2 : ReadResult, r1.csize < 1 → r2.csize < 1 →
      Process.step cfg (Process.bridging s)
          (Event.wake { w with sock := none, serial := some r2 })
        = Process.step cfg (Process.bridging s) (Event.wake { w with sock := some r1 })) ∧
    (∀ rd, rd 0 = ByteRead.eof → readline rd s.c BUFFER_SIZE = (0, s.c)) ∧
    (∀ rd, rd 0 = ByteRead.err → readline rd s.c BUFFER_SIZE = (-1, s.c)) :=
  ⟨fun rd ha h => endsSession_of_isEnded cfg w s (iteration_aux_failed cfg w s rd ha h),
   fun r hs h => endsSession_of_isEnded cfg w s (iteration_sock_failed cfg w s r hs h),
   fun r hr h => endsSession_of_isEnded cfg w s (iteration_serial_failed cfg w s r hr h),
   fun r1 r2 h1 h2 => step_serial_failed_eq_sock_failed cfg w s r1 r2 h1 h2,
   fun rd h => readline_eof_first rd s.c h,
   fun rd h => readline_err_first rd s.c h⟩

/-- The statement of C7 for a wake-up in which the data socket has data and the serial
line reports end of file. -/
theorem C7_failed_read_ends_session_witness :
    ({ Wake.idle with sock := some (ReadResult.data [104, 105]),
                      serial := some ReadResult.eof } : Wake).serial
      = some ReadResult.eof ∧
    ReadResult.eof.csize < 1 ∧
    EndsSession Config.debug Daemon.sample
      { Wake.idle with sock := some (ReadResult.data [104, 105]),
                       serial := some ReadResult.eof } :=
  ⟨rfl, by decide,
   (C7_failed_read_ends_session Config.debug Daemon.sample
      { Wake.idle with sock := some (ReadResult.data [104, 105]),
                       serial := some ReadResult.eof }).2.2.1 ReadResult.eof rfl (by decide)⟩

/-- C8, the code at failing inputs.  The test is `result == EWOULDBLOCK` on the value
returned by `write`: a write that succeeds with 11 bytes is reported as a drop, a write
that fails with `-1` (the way a would-block is reported) is not reported at all, and
`blockerror`, once set, is still set in the next session, after the restart and the
accept. -/
theorem C8_drop_report_tests_byte_count :
    (serialBranch Config.plain (ReadResult.data (List.replicate 11 65)) 11
        Daemon.sample).state.out = [Msg.droppingBytes] ∧
    (serialBranch Config.plain (ReadResult.data (List.replicate 11 65)) 11
        Daemon.sample).state.toSock = [List.replicate 11 65] ∧
    (serialBranch Config.plain (ReadResult.data [65]) (-1) Daemon.sample).state.out = [] ∧
    ∃ s, Process.run Config.plain (Process.bridging Daemon.sample)
          [Event.wake { Wake.idle with serial := some (ReadResult.data (List.replicate 11 65)),
                                       sockWrite := 11 },
           Event.wake { Wake.idle with sock := some ReadResult.eof },
           Event.accept { dataOk := true, nonblockOk := true, auxOk := true }]
        = Process.bridging s ∧ s.blockerror = 1 ∧
          (serialBranch Config.plain (ReadResult.data (List.replicate 11 65)) 11 s).state.out
            = [Msg.droppingBytes, Msg.restarting] := by
  refine ⟨by decide, by decide, by decide, ?_⟩
  exact ⟨_, rfl, by decide, by decide⟩

/-- C9 as amended: for every argument vector built from recognised flags, every
value-taking flag followed by a value and every device path shorter than 100 bytes, in
which `-serial`, `-port` and `-baud` occur fewer than three times in all, `main` returns
with status 1 before the first `makeSocket`, so before any socket is created or the
serial device opened.  It has then printed the usage banner if every `-baud` value is a
rate of the table, and otherwise only the unknown-baud error of `parseBaudRates`. -/
theorem C9_fewer_than_three_required_flags (argv0 : String) (words : List String)
    (hwf : wellFormedArgs words = true) (hcount : requiredCount words < 3) :
    startup (argv0 :: words)
      = Startup.exited 1 [if baudValuesOk words = true then Msg.usage else Msg.unknownBaud] := by
  have h := scanArgs_wellFormed words.length words (le_refl _) hwf Opts.initial []
  rw [startup_of_scan]
  cases hb : baudValuesOk words with
  | true =>
    obtain ⟨o1, e1, e2⟩ := h.1 hb
    have h3 : o1.args < 3 := by
      rw [e2]
      simp only [Opts.initial]
      omega
    rw [e1]
    simp [h3]
  | false =>
    rw [h.2 hb]
    simp

/-- The statement of C9 as amended for a command line without `-baud`. -/
theorem C9_fewer_than_three_required_flags_witness :
    wellFormedArgs ["-serial", "/dev/ttyS0", "-port", "4000", "-debug"] = true ∧
    requiredCount ["-serial", "/dev/ttyS0", "-port", "4000", "-debug"] < 3 ∧
    startup ("serialdaemon" :: ["-serial", "/dev/ttyS0", "-port", "4000", "-debug"])
      = Startup.exited 1
          [if baudValuesOk ["-serial", "/dev/ttyS0", "-port", "4000", "-debug"] = true
           then Msg.usage else Msg.unknownBaud] :=
  ⟨by decide, by decide,
   C9_fewer_than_three_required_flags "serialdaemon"
     ["-serial", "/dev/ttyS0", "-port", "4000", "-debug"] (by decide) (by decide)⟩

/-- C9 as stated fails at two command lines built from recognised flags.  With
`-port 4000 -baud 12345` the flag `-serial` does not appear, and `main` returns 1 after
the unknown-baud error without printing the usage banner.  With
`-serial /dev/ttyS0 -serial /dev/ttyS0 -port 4000` the flag `-baud` does not appear, the
counter of required flags reaches 3, and control reaches `makeSocket(4000)` with
`BAUD = 0`. -/
theorem C9_missing_flag_counterexample :
    (wellFormedArgs ["-port", "4000", "-baud", "12345"] = true ∧
      "-serial" ∉ flagWords ["-port", "4000", "-baud", "12345"] ∧
      startup ["serialdaemon", "-port", "4000", "-baud", "12345"]
        = Startup.exited 1 [Msg.unknownBaud]) ∧
    (wellFormedArgs ["-serial", "/dev/ttyS0", "-serial", "/dev/ttyS0", "-port", "4000"] = true ∧
      "-baud" ∉ flagWords ["-serial", "/dev/ttyS0", "-serial", "/dev/ttyS0", "-port", "4000"] ∧
      startup ["serialdaemon", "-serial", "/dev/ttyS0", "-serial", "/dev/ttyS0", "-port", "4000"]
        = Startup.makeSocket
            { Opts.initial with SERIAL := some "/dev/ttyS0", SOCKET_PORT := 4000, args := 3 }
            []) := by
  decide

set_option maxRecDepth 100000 in
/-- C10, the code at failing inputs: when the read fills the buffer the terminator is
stored at index 1024, one past the last cell.  This happens on the serial branch with
in-debug on and a read of 1024 bytes, on the data-socket branch with out-debug on and a
read of 1024 bytes, and on the aux branch when `readline` stops at its limit after 1023
bytes without a line feed and returns 1024. -/
theorem C10_terminator_index_reaches_buffer_size :
    (serialBranch Config.debug (ReadResult.data (List.replicate 1024 65)) 1024
        Daemon.sample).state.c.overrun = [1024] ∧
    (sockBranch Config.debug (ReadResult.data (List.replicate 1024 65)) 1024
        Daemon.sample).state.c.overrun = [1024] ∧
    (readline (fun _ => ByteRead.byte 65) Daemon.sample.c BUFFER_SIZE).1 = 1024 ∧
    (auxBranch Config.strip (fun _ => ByteRead.byte 65) true Daemon.sample).state.c.overrun
      = [1024] := by
  decide

end SerialDaemon
